import Mathlib

/-!
Verification of the slug/redirect subsystem of the startupsaga backend.

The definitions below are a shallow embedding of the Python source in
`cms/api_views.py` and `cms/models.py`:

* `Redirect` embeds the `Redirect` model (rows of the redirect ledger);
  the ledger itself is a `List Redirect`.
* `createRedirectIfSlugChanged` embeds `_create_redirect_if_slug_changed`
  (including the `get_or_create` insert-if-absent keyed on `from_path`).
* `redirectResolve` embeds the `redirect_resolve` view's path
  normalisation (`.strip().rstrip('/') or '/'`, then ensuring a leading
  slash) and exact-match lookup.
* `slugify` embeds `django.utils.text.slugify` on ASCII input
  (lowercase, drop characters that are not word characters, whitespace
  or hyphens, collapse runs of hyphens/whitespace to a single hyphen,
  strip leading/trailing hyphens and underscores).
* `assign_slug` embeds the repeated `while <Model>.objects.filter(
  slug=unique_slug).exclude(id=...).exists(): unique_slug = f'{base}-{n}'`
  loop; entity collections are embedded as `List (Nat × String)` of
  (id, slug) rows.
* `startupCreate`, `storyCreate`, `startupUpdate`, `storyUpdate`,
  `categoryUpdate`, `startupDelete`, `storyDelete` embed the slug- and
  ledger-relevant slices of the corresponding view functions.
* `DbEff`/`runGroups`/`commitUpTo` embed the transactional structure of
  the update views: each inner list is one transaction (one
  `transaction.atomic` block, or a single autocommitted statement), and a
  failing request commits some group-aligned front of the sequence.
-/

namespace StartupSaga

/-- Decidable equality for `Except` results, so that concrete runs of the
fallible operations can be checked by `decide`. -/
instance {ε α : Type} [DecidableEq ε] [DecidableEq α] : DecidableEq (Except ε α)
  | .error a, .error b =>
    if h : a = b then .isTrue (by rw [h])
    else .isFalse (fun hc => h (by injection hc))
  | .error _, .ok _ => .isFalse (fun hc => Except.noConfusion hc)
  | .ok _, .error _ => .isFalse (fun hc => Except.noConfusion hc)
  | .ok a, .ok b =>
    if h : a = b then .isTrue (by rw [h])
    else .isFalse (fun hc => h (by injection hc))

/-- Row of the `Redirect` model: `from_path` is unique across the ledger,
`to_path` is the forwarding target, `is_permanent` selects 301 vs 302. -/
structure Redirect where
  from_path : String
  to_path : String
  is_permanent : Bool
deriving DecidableEq

/-! ### Python string primitives used by the views -/

/-- Drop elements satisfying `p` from both ends of a list. -/
def stripListWith (p : Char → Bool) (l : List Char) : List Char :=
  ((l.dropWhile p).reverse.dropWhile p).reverse

/-- Drop elements satisfying `p` from the right end of a list. -/
def rstripListWith (p : Char → Bool) (l : List Char) : List Char :=
  (l.reverse.dropWhile p).reverse

/-- Python `str.strip()`: remove surrounding whitespace. -/
def pyStrip (s : String) : String :=
  ⟨stripListWith Char.isWhitespace s.data⟩

/-- Python `str.strip('/')`: remove surrounding slashes. -/
def pyStripSlashes (s : String) : String :=
  ⟨stripListWith (fun c => c = '/') s.data⟩

/-- Python `str.rstrip('/')`: remove trailing slashes. -/
def pyRstripSlashes (s : String) : String :=
  ⟨rstripListWith (fun c => c = '/') s.data⟩

/-- Python `str.replace(' ', '-')`. -/
def pyReplaceSpaceDash (s : String) : String :=
  ⟨s.data.map (fun c => if c = ' ' then '-' else c)⟩

/-- Python `str.lower()` on ASCII input. -/
def pyLower (s : String) : String :=
  ⟨s.data.map Char.toLower⟩

/-- Character class `\w` of the `slugify` regexes, restricted to ASCII. -/
def isWordChar (c : Char) : Bool :=
  c.isAlphanum || c = '_'

/-- Characters kept by the first `slugify` substitution
(`re.sub(r"[^\w\s-]", "", ...)`). -/
def slugifyKeep (c : Char) : Bool :=
  isWordChar c || c.isWhitespace || c = '-'

/-- Second `slugify` substitution (`re.sub(r"[-\s]+", "-", ...)`): each
maximal run of hyphens and whitespace becomes a single hyphen.  The flag
records whether the previous emitted character was the hyphen of a run
still in progress. -/
def collapseDashWs : Bool → List Char → List Char
  | _, [] => []
  | inRun, c :: cs =>
    if c = '-' ∨ c.isWhitespace then
      if inRun then collapseDashWs true cs
      else '-' :: collapseDashWs true cs
    else c :: collapseDashWs false cs

/-- `django.utils.text.slugify` on ASCII input: lowercase, drop characters
outside `[\w\s-]`, collapse `[-\s]+` runs to `-`, strip `-_` at the ends. -/
def slugify (s : String) : String :=
  let lowered := s.data.map Char.toLower
  let kept := lowered.filter slugifyKeep
  let collapsed := collapseDashWs false kept
  ⟨stripListWith (fun c => c = '-' ∨ c = '_') collapsed⟩

/-! ### Redirect ledger -/

/-- Path construction of `_create_redirect_if_slug_changed`:
`f"/{path_prefix.strip('/')}/{slug}/"`. -/
def computePath (pfx slug : String) : String :=
  "/" ++ pyStripSlashes pfx ++ "/" ++ slug ++ "/"

/-- `Redirect.objects.get_or_create(from_path=fp, defaults={'to_path': tp,
'is_permanent': True})`: insert-if-absent keyed on `from_path`. -/
def getOrCreateRedirect (ledger : List Redirect) (fp tp : String) : List Redirect :=
  if ledger.any (fun r => r.from_path == fp) then ledger
  else ledger ++ [⟨fp, tp, true⟩]

/-- `_create_redirect_if_slug_changed(old_slug, new_slug, path_prefix)`. -/
def createRedirectIfSlugChanged (ledger : List Redirect)
    (oldSlug newSlug pfx : String) : List Redirect :=
  if oldSlug = "" ∨ newSlug = "" ∨ oldSlug = newSlug then ledger
  else
    let fp := computePath pfx oldSlug
    let tp := computePath pfx newSlug
    if fp ≠ tp then getOrCreateRedirect ledger fp tp else ledger

/-- Python `path.startswith('/')`: the first character is a slash. -/
def startsWithSlash (s : String) : Bool :=
  match s.data with
  | [] => false
  | c :: _ => c = '/'

/-- The `redirect_resolve` view: normalise the query
(`(path or '').strip().rstrip('/') or '/'`, then ensure a leading slash)
and look it up by exact match on `from_path`; `none` is the 404 branch. -/
def redirectResolve (ledger : List Redirect) (raw : String) : Option (String × Bool) :=
  let p0 := pyRstripSlashes (pyStrip raw)
  let p1 := if p0 = "" then "/" else p0
  let p2 := if startsWithSlash p1 then p1 else "/" ++ p1
  (ledger.find? (fun r => r.from_path == p2)).map (fun r => (r.to_path, r.is_permanent))

/-! ### Slug generator -/

/-- One row of an entity collection is an (id, slug) pair; `slugTaken`
embeds `<Model>.objects.filter(slug=s).exclude(id=ex).exists()`
(with `ex = none` when the create path applies no `exclude`). -/
def slugTaken (rows : List (Nat × String)) (ex : Option Nat) (s : String) : Bool :=
  rows.any (fun r => !(ex == some r.1) && r.2 == s)

/-- The candidate tried at step `k` of the uniqueness loop: the base slug
itself at `k = 0`, `f'{base}-{k}'` afterwards. -/
def candidate (base : String) : Nat → String
  | 0 => base
  | k + 1 => base ++ "-" ++ Nat.repr (k + 1)

/-- The `while ... exists(): unique_slug = f'{base_slug}-{counter}';
counter += 1` loop, with explicit fuel (the source loop terminates because
the collection is finite; `assign_slug` supplies enough fuel). -/
def assignSlugLoop (rows : List (Nat × String)) (ex : Option Nat) (base : String) :
    Nat → String → Nat → String
  | 0, cur, _ => cur
  | fuel + 1, cur, counter =>
    if slugTaken rows ex cur then
      assignSlugLoop rows ex base fuel (base ++ "-" ++ Nat.repr counter) (counter + 1)
    else cur

/-- Slug uniqueness as implemented at every create/update site: start from
the base candidate and counter 1.  `rows.length + 1` steps always suffice
(proved below). -/
def assign_slug (base : String) (rows : List (Nat × String)) (ex : Option Nat) : String :=
  assignSlugLoop rows ex base (rows.length + 1) base 1

/-! ### Entity creation -/

/-- Outcome of a successful create: the grown collection, the assigned
slug and the persisted lifecycle status. -/
structure CreatedEntity where
  rows : List (Nat × String)
  slug : String
  status : String
deriving DecidableEq

/-- Declared default of `Startup.status` in `cms/models.py`. -/
def startupModelDefaultStatus : String := "draft"

/-- Declared default of `Story.status` in `cms/models.py`. -/
def storyModelDefaultStatus : String := "draft"

/-- Slug normalisation run by `Startup.save()` (models.py 114-119) just
before the row is written: an empty slug is derived from the name, any
other slug is lowercased and has spaces replaced by hyphens. -/
def startupSaveSlug (name slug : String) : String :=
  if slug = "" then pyReplaceSpaceDash (pyLower (slugify name))
  else pyReplaceSpaceDash (pyLower slug)

/-- Slug normalisation run by `Story.save()` (models.py 181-186), same
shape as `startupSaveSlug` but derived from the title.  (`Category.save`
and `City.save` only fill an empty slug; `Page` has no save override.) -/
def storySaveSlug (title slug : String) : String :=
  if slug = "" then pyReplaceSpaceDash (pyLower (slugify title))
  else pyReplaceSpaceDash (pyLower slug)

/-- Slice of `startup_create`: validate `(data.get('name') or '').strip()`,
take `data.get('slug') or slugify(name)` as base, run the uniqueness loop
(no exclusion), then persist — `Startup.objects.create` calls
`Startup.save()`, which normalises the slug — with
`status=data.get('status', 'published')`. -/
def startupCreate (rows : List (Nat × String)) (newId : Nat)
    (nameOpt slugOpt statusOpt : Option String) : Except String CreatedEntity :=
  let nm := pyStrip (nameOpt.getD "")
  if nm = "" then .error "Name is required"
  else
    let base :=
      match slugOpt with
      | some s => if s = "" then slugify nm else s
      | none => slugify nm
    let slug := startupSaveSlug nm (assign_slug base rows none)
    .ok ⟨rows ++ [(newId, slug)], slug, statusOpt.getD "published"⟩

/-- Slice of `story_create`: there is no title validation; the base slug is
`data.get('slug') or slugify(data.get('title'))`, the uniqueness loop runs
on it raw, and `Story.objects.create` then calls `Story.save()`, which
normalises the slug before the row is persisted with
`status=data.get('status', 'draft')`.  A missing (`None`) title is
rejected only by the database NOT NULL constraint on `Story.title`, caught
by the blanket `except` as a 400; an empty-string title is persisted.  The
second component of the result is the stored title. -/
def storyCreate (rows : List (Nat × String)) (newId : Nat)
    (titleOpt slugOpt statusOpt : Option String) :
    Except String (CreatedEntity × String) :=
  match titleOpt with
  | none => .error "NOT NULL constraint failed: cms_story.title"
  | some t =>
    let base :=
      match slugOpt with
      | some s => if s = "" then slugify t else s
      | none => slugify t
    let slug := storySaveSlug t (assign_slug base rows none)
    .ok (⟨rows ++ [(newId, slug)], slug, statusOpt.getD "draft"⟩, t)

/-! ### Entity updates -/

/-- Slug computation of `startup_update`: only an explicitly supplied,
non-empty slug different from the current one triggers the generator, on
`slugify(data['slug']).lower().replace(' ', '-')`, excluding the row's own
id. -/
def startupUpdateNewSlug (rows : List (Nat × String)) (id : Nat) (cur : String)
    (dataSlug : Option String) : String :=
  match dataSlug with
  | none => cur
  | some s =>
    if s ≠ "" ∧ s ≠ cur then
      assign_slug (pyReplaceSpaceDash (pyLower (slugify s))) rows (some id)
    else cur

/-- Slice of `startup_update`: look the startup up by its current slug,
recompute the slug, persist, and (inside the same `transaction.atomic`
block) call `_create_redirect_if_slug_changed(old, new, 'startups')`.
`none` is the 404 branch. -/
def startupUpdate (rows : List (Nat × String)) (ledger : List Redirect)
    (urlSlug : String) (dataSlug : Option String) :
    Option (List (Nat × String) × List Redirect) :=
  match rows.find? (fun r => r.2 == urlSlug) with
  | none => none
  | some r =>
    let ns := startupUpdateNewSlug rows r.1 r.2 dataSlug
    some (rows.map (fun q => if q.1 = r.1 then (r.1, ns) else q),
      createRedirectIfSlugChanged ledger r.2 ns "startups")

/-- Pre-save slug assignment of `story_update`'s slug block: the supplied
slug is used raw (no `slugify`) as base of the uniqueness loop, excluding
the story's own id.  `Story.save()` then normalises this value
(`storySaveSlug`) before it is written and before the redirect call reads
`story.slug`. -/
def storyUpdateNewSlug (rows : List (Nat × String)) (sid : Nat) (cur : String)
    (dataSlug : Option String) : String :=
  match dataSlug with
  | none => cur
  | some s =>
    if s ≠ "" ∧ s ≠ cur then assign_slug s rows (some sid)
    else cur

/-- Slice of `story_update`: look the story up by id, run the slug block,
persist via `story.save()` — which applies the `Story.save` slug
normalisation using the story's title at save time — then call
`_create_redirect_if_slug_changed(old, story.slug, 'stories')` on the
normalised slug (not wrapped in any transaction). -/
def storyUpdate (rows : List (Nat × String)) (ledger : List Redirect)
    (sid : Nat) (title : String) (dataSlug : Option String) :
    Option (List (Nat × String) × List Redirect) :=
  match rows.find? (fun r => r.1 == sid) with
  | none => none
  | some r =>
    let ns := storySaveSlug title (storyUpdateNewSlug rows sid r.2 dataSlug)
    some (rows.map (fun q => if q.1 = sid then (sid, ns) else q),
      createRedirectIfSlugChanged ledger r.2 ns "stories")

/-- Slice of `category_update`: a category row is (id, (name, slug)); a
non-empty stripped new name different from the current one regenerates the
slug (excluding the row's own id).  The view contains no call into the
redirect ledger, so the ledger is returned exactly as it came in. -/
def categoryUpdate (rows : List (Nat × String × String)) (ledger : List Redirect)
    (urlSlug : String) (dataName : Option String) :
    Option (List (Nat × String × String) × List Redirect) :=
  match rows.find? (fun r => r.2.2 == urlSlug) with
  | none => none
  | some r =>
    match dataName with
    | none => some (rows, ledger)
    | some n =>
      if n ≠ "" ∧ pyStrip n ≠ "" ∧ pyStrip n ≠ r.2.1 then
        let ns := assign_slug (slugify (pyStrip n))
          (rows.map (fun (q : Nat × String × String) => (q.1, q.2.2))) (some r.1)
        some (rows.map (fun q => if q.1 = r.1 then (r.1, pyStrip n, ns) else q), ledger)
      else some (rows, ledger)

/-- Slice of `city_update`: a non-empty stripped new name regenerates the
slug only when no explicit slug is supplied; an explicit slug that
collides (excluding the row itself) is rejected with a 400.  The view
contains no call into the redirect ledger. -/
def cityUpdate (rows : List (Nat × String × String)) (ledger : List Redirect)
    (urlSlug : String) (dataName dataSlug : Option String) :
    Except String (List (Nat × String × String) × List Redirect) :=
  match rows.find? (fun r => r.2.2 == urlSlug) with
  | none => .error "Not found"
  | some r =>
    let afterName :=
      match dataName with
      | none => (r.2.1, r.2.2)
      | some n =>
        if n ≠ "" ∧ pyStrip n ≠ "" ∧ pyStrip n ≠ r.2.1 then
          if dataSlug = none then
            (pyStrip n, assign_slug (slugify (pyStrip n))
              (rows.map (fun (q : Nat × String × String) => (q.1, q.2.2))) (some r.1))
          else (pyStrip n, r.2.2)
        else (r.2.1, r.2.2)
    match dataSlug with
    | some s =>
      if s ≠ "" ∧ s ≠ afterName.2 then
        if slugTaken (rows.map (fun (q : Nat × String × String) => (q.1, q.2.2))) (some r.1) s then
          .error "Slug already exists"
        else .ok (rows.map (fun q => if q.1 = r.1 then (r.1, afterName.1, s) else q), ledger)
      else .ok (rows.map (fun q => if q.1 = r.1 then (r.1, afterName.1, afterName.2) else q), ledger)
    | none =>
      .ok (rows.map (fun q => if q.1 = r.1 then (r.1, afterName.1, afterName.2) else q), ledger)

/-- Slice of `page_update`: look the page up by pk; a supplied slug that
differs from the current one (no truthiness check in the source) runs the
uniqueness loop raw, excluding the page itself.  `Page` has no `save`
override, and the view contains no call into the redirect ledger. -/
def pageUpdate (rows : List (Nat × String)) (ledger : List Redirect)
    (pk : Nat) (dataSlug : Option String) :
    Option (List (Nat × String) × List Redirect) :=
  match rows.find? (fun r => r.1 == pk) with
  | none => none
  | some r =>
    let ns :=
      match dataSlug with
      | none => r.2
      | some s => if s ≠ r.2 then assign_slug s rows (some pk) else r.2
    some (rows.map (fun q => if q.1 = pk then (pk, ns) else q), ledger)

/-! ### Entity deletion -/

/-- Slice of `startup_delete`: look the startup up by slug and delete that
row; nothing else is touched (in particular not the redirect ledger). -/
def startupDelete (rows : List (Nat × String)) (ledger : List Redirect)
    (urlSlug : String) : Option (List (Nat × String) × List Redirect) :=
  match rows.find? (fun r => r.2 == urlSlug) with
  | none => none
  | some r => some (rows.filter (fun q => q.1 ≠ r.1), ledger)

/-- Slice of `story_delete`: look the story up by id and delete that row;
the redirect ledger is not touched. -/
def storyDelete (rows : List (Nat × String)) (ledger : List Redirect)
    (sid : Nat) : Option (List (Nat × String) × List Redirect) :=
  match rows.find? (fun r => r.1 == sid) with
  | none => none
  | some _ => some (rows.filter (fun q => q.1 ≠ sid), ledger)

/-! ### Transactional structure of the update views -/

/-- Database state touched by a slug-changing update: one entity table and
the redirect ledger. -/
structure LedgerState where
  entities : List (Nat × String)
  redirects : List Redirect
deriving DecidableEq

/-- Primitive database writes issued by the update views. -/
inductive DbEff where
  | saveEntity : Nat → String → DbEff
  | putRedirect : String → String → DbEff
deriving DecidableEq

/-- Effect of one primitive write. -/
def applyEff (s : LedgerState) : DbEff → LedgerState
  | .saveEntity id slug =>
    ⟨s.entities.map (fun r => if r.1 = id then (id, slug) else r), s.redirects⟩
  | .putRedirect fp tp => ⟨s.entities, getOrCreateRedirect s.redirects fp tp⟩

/-- The writes `_create_redirect_if_slug_changed` issues (at most one
conditional `get_or_create`). -/
def redirectEffs (oldSlug newSlug pfx : String) : List DbEff :=
  if oldSlug = "" ∨ newSlug = "" ∨ oldSlug = newSlug then []
  else if computePath pfx oldSlug ≠ computePath pfx newSlug then
    [.putRedirect (computePath pfx oldSlug) (computePath pfx newSlug)]
  else []

/-- Transaction grouping of `startup_update`: the save and the redirect
registration sit inside one `transaction.atomic` block, hence form a
single group. -/
def startupUpdateTxnGroups (rows : List (Nat × String)) (urlSlug : String)
    (dataSlug : Option String) : Option (List (List DbEff)) :=
  match rows.find? (fun r => r.2 == urlSlug) with
  | none => none
  | some r =>
    let ns := startupUpdateNewSlug rows r.1 r.2 dataSlug
    some [DbEff.saveEntity r.1 ns :: redirectEffs r.2 ns "startups"]

/-- Transaction grouping of `story_update`: there is no `transaction.atomic`
block, so the save (writing the `Story.save`-normalised slug) and the
redirect registration (reading that same normalised slug) are separate
autocommitted statements, each its own group. -/
def storyUpdateTxnGroups (rows : List (Nat × String)) (sid : Nat)
    (title : String) (dataSlug : Option String) : Option (List (List DbEff)) :=
  match rows.find? (fun r => r.1 == sid) with
  | none => none
  | some r =>
    let ns := storySaveSlug title (storyUpdateNewSlug rows sid r.2 dataSlug)
    some ([DbEff.saveEntity sid ns] :: (redirectEffs r.2 ns "stories").map (fun e => [e]))

/-- Run every transaction group to completion. -/
def runGroups (s : LedgerState) (gs : List (List DbEff)) : LedgerState :=
  gs.foldl (fun st g => g.foldl applyEff st) s

/-- State visible after the first `n` transaction groups committed and the
request then failed: committed transactions stay, later ones are lost. -/
def commitUpTo (s : LedgerState) (gs : List (List DbEff)) (n : Nat) : LedgerState :=
  runGroups s (gs.take n)


/-! ### Decimal representation: `Nat.repr` is injective

The uniqueness loop distinguishes candidates `base`, `base-1`, `base-2`, …
only through the decimal printing of the counter, so termination-adequacy
of the fuel in `assign_slug` rests on `Nat.repr` being injective.  We
prove it by exhibiting an inverse (`decValFrom 0`). -/

/-- Numeric value of a decimal digit character. -/
def digitVal (c : Char) : Nat := c.toNat - 48

/-- Decimal digits of `n`, most significant first, by plain well-founded
recursion (the fuel-free shape of `Nat.toDigitsCore`). -/
def natDigits (n : Nat) : List Char :=
  if h : n < 10 then [Nat.digitChar n]
  else natDigits (n / 10) ++ [Nat.digitChar (n % 10)]
termination_by n
decreasing_by simp_wf; omega

/-- Horner evaluation of a digit list starting from accumulator `a`. -/
def decValFrom (a : Nat) (ds : List Char) : Nat :=
  ds.foldl (fun x c => x * 10 + digitVal c) a

lemma digitVal_digitChar : ∀ d, d < 10 → digitVal (Nat.digitChar d) = d := by decide

lemma natDigits_of_lt {n : Nat} (h : n < 10) : natDigits n = [Nat.digitChar n] := by
  rw [natDigits, dif_pos h]

lemma natDigits_of_ge {n : Nat} (h : ¬ n < 10) :
    natDigits n = natDigits (n / 10) ++ [Nat.digitChar (n % 10)] := by
  conv_lhs => rw [natDigits]
  rw [dif_neg h]

lemma natDigits_length_pos (n : Nat) : 0 < (natDigits n).length := by
  by_cases h : n < 10
  · rw [natDigits_of_lt h]
    simp
  · rw [natDigits_of_ge h]
    simp

lemma toDigitsCore_eq_natDigits :
    ∀ (fuel n : Nat) (ds : List Char), 0 < fuel → n < 10 ^ fuel →
      Nat.toDigitsCore 10 fuel n ds = natDigits n ++ ds := by
  intro fuel
  induction fuel with
  | zero => intro n ds h; omega
  | succ f ih =>
    intro n ds _ hlt
    simp only [Nat.toDigitsCore]
    by_cases h0 : n / 10 = 0
    · have hn : n < 10 := by omega
      rw [if_pos h0, natDigits_of_lt hn, Nat.mod_eq_of_lt hn]
      simp
    · have hf : 0 < f := by
        by_contra hf0
        have : f = 0 := by omega
        subst this
        simp at hlt
        omega
      have hnext : n / 10 < 10 ^ f := by
        have h10 : (0:Nat) < 10 := by norm_num
        rw [Nat.div_lt_iff_lt_mul h10]
        calc n < 10 ^ (f + 1) := hlt
          _ = 10 ^ f * 10 := by rw [pow_succ]
      rw [if_neg h0, ih (n / 10) (Nat.digitChar (n % 10) :: ds) hf hnext]
      have hge : ¬ n < 10 := by omega
      rw [natDigits_of_ge hge]
      simp

lemma repr_data_eq_natDigits (n : Nat) : (Nat.repr n).data = natDigits n := by
  have hfuel : n < 10 ^ (n + 1) := by
    have h1 := Nat.lt_pow_self (show (1:Nat) < 10 by norm_num) n
    have h2 : (10:Nat) ^ n ≤ 10 ^ (n + 1) :=
      Nat.pow_le_pow_right (by norm_num) (by omega)
    omega
  show (Nat.toDigits 10 n).asString.data = natDigits n
  rw [Nat.toDigits, toDigitsCore_eq_natDigits (n + 1) n [] (by omega) hfuel]
  simp [List.asString]

lemma decValFrom_natDigits :
    ∀ (n a : Nat), decValFrom a (natDigits n) = a * 10 ^ (natDigits n).length + n := by
  intro n
  induction n using Nat.strong_induction_on with
  | _ n ih =>
    intro a
    by_cases h : n < 10
    · rw [natDigits_of_lt h]
      simp [decValFrom, digitVal_digitChar n h]
    · rw [natDigits_of_ge h]
      have hdiv : n / 10 < n := by omega
      have hmod : n % 10 < 10 := by omega
      simp only [decValFrom, List.foldl_append, List.foldl_cons, List.foldl_nil]
      have hrec := ih (n / 10) hdiv a
      simp only [decValFrom] at hrec
      rw [hrec, digitVal_digitChar (n % 10) hmod]
      rw [List.length_append, List.length_cons, List.length_nil]
      rw [pow_succ, ← Nat.mul_assoc]
      set Y := a * 10 ^ (natDigits (n / 10)).length with hY
      omega

lemma natDigits_inj {m n : Nat} (h : natDigits m = natDigits n) : m = n := by
  have hm := decValFrom_natDigits m 0
  have hn := decValFrom_natDigits n 0
  rw [h] at hm
  simp only [Nat.zero_mul, Nat.zero_add] at hm hn
  omega

lemma repr_inj {m n : Nat} (h : Nat.repr m = Nat.repr n) : m = n :=
  natDigits_inj (by rw [← repr_data_eq_natDigits, ← repr_data_eq_natDigits, h])

lemma repr_length_pos (n : Nat) : 0 < (Nat.repr n).length := by
  show 0 < (Nat.repr n).data.length
  rw [repr_data_eq_natDigits]
  exact natDigits_length_pos n

/-! ### Correctness of the slug uniqueness loop -/

lemma candidate_inj (base : String) : Function.Injective (candidate base) := by
  have hlen : ∀ k : Nat, candidate base (k + 1) ≠ base := by
    intro k h
    have hl := congrArg String.length h
    rw [candidate, String.length_append, String.length_append] at hl
    have hp := repr_length_pos (k + 1)
    have hdash : ("-" : String).length = 1 := rfl
    omega
  intro i j h
  match i, j with
  | 0, 0 => rfl
  | 0, j + 1 => exact absurd h.symm (hlen j)
  | i + 1, 0 => exact absurd h (hlen i)
  | i + 1, j + 1 =>
    have hd := congrArg String.data h
    simp only [candidate, String.data_append] at hd
    rw [List.append_assoc, List.append_assoc] at hd
    have hd2 := List.append_cancel_left hd
    have hd3 := List.append_cancel_left hd2
    rw [repr_data_eq_natDigits, repr_data_eq_natDigits] at hd3
    exact natDigits_inj hd3

lemma slugTaken_mem {rows : List (Nat × String)} {ex : Option Nat} {s : String}
    (h : slugTaken rows ex s = true) : s ∈ rows.map Prod.snd := by
  rw [slugTaken, List.any_eq_true] at h
  obtain ⟨r, hr, hp⟩ := h
  rw [Bool.and_eq_true] at hp
  have hs : r.2 = s := by
    have := hp.2
    rwa [beq_iff_eq] at this
  exact List.mem_map.mpr ⟨r, hr, hs⟩

/-- Pigeonhole adequacy of the fuel: among the first `rows.length + 1`
candidates at least one is free, because the candidates are pairwise
distinct and at most `rows.length` slugs are taken. -/
lemma exists_free_candidate (base : String) (rows : List (Nat × String)) (ex : Option Nat) :
    ∃ i, i ≤ rows.length ∧ slugTaken rows ex (candidate base i) = false := by
  by_contra hc
  push_neg at hc
  have htaken : ∀ i, i ≤ rows.length → slugTaken rows ex (candidate base i) = true := by
    intro i hi
    cases hb : slugTaken rows ex (candidate base i) with
    | true => rfl
    | false => exact absurd hb (hc i hi)
  have hmem : ∀ i ∈ Finset.range (rows.length + 1),
      candidate base i ∈ (rows.map Prod.snd).toFinset := by
    intro i hi
    rw [Finset.mem_range] at hi
    exact List.mem_toFinset.mpr (slugTaken_mem (htaken i (by omega)))
  have hinj : Set.InjOn (candidate base) (Finset.range (rows.length + 1)) :=
    fun a _ b _ hab => candidate_inj base hab
  have hcard := Finset.card_le_card_of_injOn (candidate base) hmem hinj
  rw [Finset.card_range] at hcard
  have hle : (rows.map Prod.snd).toFinset.card ≤ rows.length := by
    have := (rows.map Prod.snd).toFinset_card_le
    rwa [List.length_map] at this
  omega

/-- The loop, started at candidate `k` with counter `k + 1`, stops at the
first free candidate at or after `k` (provided one exists within the fuel). -/
lemma assignSlugLoop_eq (rows : List (Nat × String)) (ex : Option Nat) (base : String) :
    ∀ (fuel k i : Nat), i < fuel →
      slugTaken rows ex (candidate base (k + i)) = false →
      (∀ j, j < i → slugTaken rows ex (candidate base (k + j)) = true) →
      assignSlugLoop rows ex base fuel (candidate base k) (k + 1) = candidate base (k + i) := by
  intro fuel
  induction fuel with
  | zero => intro k i hi; omega
  | succ f ih =>
    intro k i hi hfree hmin
    simp only [assignSlugLoop]
    by_cases hk : slugTaken rows ex (candidate base k) = true
    · rw [if_pos hk]
      cases i with
      | zero =>
        rw [Nat.add_zero] at hfree
        rw [hfree] at hk
        exact absurd hk (by simp)
      | succ i' =>
        have hcur : base ++ "-" ++ Nat.repr (k + 1) = candidate base (k + 1) := rfl
        rw [hcur]
        have hstep := ih (k + 1) i' (by omega)
          (by
            have harg : k + 1 + i' = k + (i' + 1) := by omega
            rw [harg]
            exact hfree)
          (by
            intro j hj
            have harg : k + 1 + j = k + (j + 1) := by omega
            rw [harg]
            exact hmin (j + 1) (by omega))
        have harg2 : k + 1 + i' = k + (i' + 1) := by omega
        rw [harg2] at hstep
        exact hstep
    · have hk0 : slugTaken rows ex (candidate base k) = false := by
        cases hb : slugTaken rows ex (candidate base k) with
        | true => exact absurd hb hk
        | false => rfl
      rw [if_neg hk]
      have hi0 : i = 0 := by
        by_contra hne
        have := hmin 0 (by omega)
        rw [Nat.add_zero] at this
        rw [this] at hk0
        exact absurd hk0 (by simp)
      rw [hi0, Nat.add_zero]


/-- The result of `assign_slug` characterised: free at the instant of
check, equal to the base candidate when the base is free, and otherwise
the first free suffixed candidate. -/
lemma assign_slug_spec (base : String) (rows : List (Nat × String)) (ex : Option Nat) :
    slugTaken rows ex (assign_slug base rows ex) = false
  ∧ (slugTaken rows ex base = false → assign_slug base rows ex = base)
  ∧ (slugTaken rows ex base = true →
      ∃ k, 0 < k ∧ assign_slug base rows ex = candidate base k
        ∧ slugTaken rows ex (candidate base k) = false
        ∧ ∀ j, 0 < j → j < k → slugTaken rows ex (candidate base j) = true) := by
  obtain ⟨i, hile, hifree⟩ := exists_free_candidate base rows ex
  have hex : ∃ m, slugTaken rows ex (candidate base m) = false := ⟨i, hifree⟩
  have hspec := Nat.find_spec hex
  have hminp : ∀ j, j < Nat.find hex → slugTaken rows ex (candidate base j) = true := by
    intro j hj
    have hne := Nat.find_min hex hj
    cases hb : slugTaken rows ex (candidate base j) with
    | true => rfl
    | false => exact absurd hb hne
  have hle : Nat.find hex ≤ rows.length := le_trans (Nat.find_min' hex hifree) hile
  have hrun : assign_slug base rows ex = candidate base (Nat.find hex) := by
    show assignSlugLoop rows ex base (rows.length + 1) base 1 = _
    have hstep := assignSlugLoop_eq rows ex base (rows.length + 1) 0 (Nat.find hex)
      (by omega)
      (by rw [Nat.zero_add]; exact hspec)
      (by intro j hj; rw [Nat.zero_add]; exact hminp j hj)
    simp only [Nat.zero_add] at hstep
    exact hstep
  refine ⟨?_, ?_, ?_⟩
  · rw [hrun]
    exact hspec
  · intro hfree0
    have hfind0 : Nat.find hex = 0 := by
      have hfree0c : slugTaken rows ex (candidate base 0) = false := hfree0
      have := Nat.find_min' hex hfree0c
      omega
    rw [hrun, hfind0]
    rfl
  · intro htaken0
    have hne : Nat.find hex ≠ 0 := by
      intro h0
      have hb : slugTaken rows ex base = false := by
        rw [h0] at hspec
        exact hspec
      rw [htaken0] at hb
      simp at hb
    refine ⟨Nat.find hex, by omega, hrun, hspec, ?_⟩
    intro j _ hjlt
    exact hminp j hjlt

/-! ### The save-time normalisation is the identity on generated suffixes

`Story.save()` lowercases the slug and replaces spaces by hyphens; the
characters the uniqueness loop appends (`-` and decimal digits) are fixed
points of that map, so a slug generated from the empty base is unchanged
by the save. -/

lemma digitChar_lower_fixed : ∀ d, d < 10 →
    (Nat.digitChar d).toLower = Nat.digitChar d ∧ Nat.digitChar d ≠ ' ' := by decide

lemma natDigits_chars (n : Nat) :
    ∀ c ∈ natDigits n, c.toLower = c ∧ c ≠ ' ' := by
  induction n using Nat.strong_induction_on with
  | _ n ih =>
    intro c hc
    by_cases h : n < 10
    · rw [natDigits_of_lt h] at hc
      rw [List.mem_singleton] at hc
      subst hc
      exact digitChar_lower_fixed n h
    · rw [natDigits_of_ge h] at hc
      rw [List.mem_append, List.mem_singleton] at hc
      cases hc with
      | inl hmem => exact ih (n / 10) (by omega) c hmem
      | inr heq =>
        subst heq
        exact digitChar_lower_fixed (n % 10) (by omega)

lemma lower_replace_fixed_list :
    ∀ (l : List Char), (∀ c ∈ l, c.toLower = c ∧ c ≠ ' ') →
      (l.map Char.toLower).map (fun c => if c = ' ' then '-' else c) = l := by
  intro l hl
  induction l with
  | nil => rfl
  | cons a as iha =>
    have ha := hl a (by simp)
    have has : ∀ c ∈ as, c.toLower = c ∧ c ≠ ' ' := fun c hc => hl c (by simp [hc])
    simp only [List.map_cons, List.cons.injEq]
    constructor
    · rw [ha.1, if_neg ha.2]
    · exact iha has

lemma lower_replace_fixed {s : String}
    (h : ∀ c ∈ s.data, c.toLower = c ∧ c ≠ ' ') :
    pyReplaceSpaceDash (pyLower s) = s := by
  apply String.ext
  show (s.data.map Char.toLower).map (fun c => if c = ' ' then '-' else c) = s.data
  exact lower_replace_fixed_list s.data h

/-- A slug generated by the uniqueness loop from the empty base (`""` or
`"-k"`) passes through the `Story.save` normalisation unchanged. -/
lemma storySaveSlug_empty_assign (rows : List (Nat × String)) :
    storySaveSlug "" (assign_slug "" rows none) = assign_slug "" rows none := by
  have hform : ∃ k, assign_slug "" rows none = candidate "" k := by
    cases ht : slugTaken rows none "" with
    | false => exact ⟨0, (assign_slug_spec "" rows none).2.1 ht⟩
    | true =>
      obtain ⟨k, _, hk, _, _⟩ := (assign_slug_spec "" rows none).2.2 ht
      exact ⟨k, hk⟩
  obtain ⟨k, hk⟩ := hform
  rw [hk]
  cases k with
  | zero => decide
  | succ j =>
    have hne : candidate "" (j + 1) ≠ "" := by
      show "" ++ "-" ++ Nat.repr (j + 1) ≠ ""
      intro he
      have hlen := congrArg String.length he
      rw [String.length_append, String.length_append] at hlen
      have hp := repr_length_pos (j + 1)
      have h1 : ("-" : String).length = 1 := rfl
      have h0 : ("" : String).length = 0 := rfl
      omega
    unfold storySaveSlug
    rw [if_neg hne]
    apply lower_replace_fixed
    intro c hc
    have hdata : (candidate "" (j + 1)).data = '-' :: (Nat.repr (j + 1)).data := by
      show (("" ++ "-") ++ Nat.repr (j + 1)).data = _
      rw [String.data_append]
      rfl
    rw [hdata, List.mem_cons] at hc
    cases hc with
    | inl h1 =>
      subst h1
      exact ⟨by decide, by decide⟩
    | inr h2 =>
      rw [repr_data_eq_natDigits] at h2
      exact natDigits_chars (j + 1) c h2

/-! ### Redirect ledger lemmas -/

/-- Two paths built by `computePath` with the same kind segment agree only
on equal slugs. -/
lemma computePath_inj (pfx : String) {a b : String}
    (h : computePath pfx a = computePath pfx b) : a = b := by
  have key : ∀ x : String,
      computePath pfx x = ("/" ++ pyStripSlashes pfx ++ "/") ++ (x ++ "/") := by
    intro x
    rw [computePath, String.append_assoc, String.append_assoc]
  rw [key a, key b] at h
  have hd := congrArg String.data h
  simp only [String.data_append] at hd
  have h1 := List.append_cancel_left hd
  have h2 := List.append_cancel_right h1
  exact String.ext h2

/-- After `getOrCreateRedirect`, some record carries the key. -/
lemma getOrCreateRedirect_has (ledger : List Redirect) (fp tp : String) :
    (getOrCreateRedirect ledger fp tp).any (fun r => r.from_path == fp) = true := by
  unfold getOrCreateRedirect
  by_cases h : ledger.any (fun r => r.from_path == fp) = true
  · rw [if_pos h]
    exact h
  · rw [if_neg h]
    simp

/-- `getOrCreateRedirect` leaves the ledger unchanged when some record
already carries the key. -/
lemma getOrCreateRedirect_of_has {ledger : List Redirect} {fp : String} (tp : String)
    (h : ledger.any (fun r => r.from_path == fp) = true) :
    getOrCreateRedirect ledger fp tp = ledger := by
  unfold getOrCreateRedirect
  rw [if_pos h]

/-- A slug change between two distinct non-empty slugs always leaves a
record keyed on the old path in the ledger. -/
lemma createRedirect_registers (ledger : List Redirect) (oldSlug newSlug pfx : String)
    (h1 : oldSlug ≠ "") (h2 : newSlug ≠ "") (h3 : oldSlug ≠ newSlug) :
    (createRedirectIfSlugChanged ledger oldSlug newSlug pfx).any
      (fun r => r.from_path == computePath pfx oldSlug) = true := by
  unfold createRedirectIfSlugChanged
  rw [if_neg (by simp [h1, h2, h3])]
  have hne : computePath pfx oldSlug ≠ computePath pfx newSlug :=
    fun he => h3 (computePath_inj pfx he)
  rw [if_pos hne]
  exact getOrCreateRedirect_has ledger _ _

/-- A record keyed on the computed `from_path` blocks any change:
`_create_redirect_if_slug_changed` is first-write-wins. -/
lemma createRedirect_of_has {ledger : List Redirect} {oldSlug newSlug pfx : String}
    (h : ledger.any (fun r => r.from_path == computePath pfx oldSlug) = true) :
    createRedirectIfSlugChanged ledger oldSlug newSlug pfx = ledger := by
  unfold createRedirectIfSlugChanged
  by_cases hg : oldSlug = "" ∨ newSlug = "" ∨ oldSlug = newSlug
  · rw [if_pos hg]
  · rw [if_neg hg]
    by_cases hne : computePath pfx oldSlug ≠ computePath pfx newSlug
    · rw [if_pos hne]
      exact getOrCreateRedirect_of_has _ h
    · rw [if_neg hne]

/-! ### Claim theorems -/

/-- C1.  The registration/resolution round trip fails in the code:
`register_redirect("old", "new", "stories")` stores the record under
`"/stories/old/"` (trailing slash), but `redirect_resolve` strips every
trailing slash from the query before its exact-match lookup, so neither
`resolve("/stories/old")` nor `resolve("/stories/old/")` finds the record;
a record stored without the trailing slash (the format shown in the
`Redirect` model's own help text) would be found.  The claim is right
about the intent and the code loses every lookup of a stored key. -/
theorem redirect_roundtrip_code_bug :
    createRedirectIfSlugChanged [] "old" "new" "stories" =
      [⟨"/stories/old/", "/stories/new/", true⟩]
  ∧ redirectResolve [⟨"/stories/old/", "/stories/new/", true⟩] "/stories/old" = none
  ∧ redirectResolve [⟨"/stories/old/", "/stories/new/", true⟩] "/stories/old/" = none
  ∧ redirectResolve [⟨"/stories/old", "/stories/new", true⟩] "/stories/old/" =
      some ("/stories/new", true) := by
  refine ⟨by decide, by decide, by decide, by decide⟩

/-- C4.  On a ledger carrying no record keyed `"/stories/old/"`,
`register_redirect("old", "new", "stories")` appends exactly one record,
with `from_path = "/stories/old/"`, `to_path = "/stories/new/"` and
`is_permanent = true`. -/
theorem register_redirect_fresh_inserts (ledger : List Redirect)
    (h : ∀ r ∈ ledger, r.from_path ≠ "/stories/old/") :
    createRedirectIfSlugChanged ledger "old" "new" "stories" =
      ledger ++ [⟨"/stories/old/", "/stories/new/", true⟩] := by
  have hfp : computePath "stories" "old" = "/stories/old/" := by decide
  have hnone : ledger.any (fun r => r.from_path == computePath "stories" "old") = false := by
    rw [hfp]
    rw [List.any_eq_false]
    intro r hr
    simp [h r hr]
  unfold createRedirectIfSlugChanged
  rw [if_neg (by simp)]
  rw [if_pos (by decide)]
  unfold getOrCreateRedirect
  rw [if_neg (by rw [hnone]; simp)]
  rw [hfp]
  have htp : computePath "stories" "new" = "/stories/new/" := by decide
  rw [htp]

/-- Witness for C4 at the empty ledger. -/
theorem register_redirect_fresh_inserts_witness :
    createRedirectIfSlugChanged [] "old" "new" "stories" =
      [] ++ [⟨"/stories/old/", "/stories/new/", true⟩] :=
  register_redirect_fresh_inserts [] (by simp)

/-- C5.  `register_redirect` is first-write-wins and idempotent: an
existing record for the computed `from_path` blocks the call entirely
(the ledger, hence that record's `to_path` and `is_permanent`, is
unchanged and nothing is inserted); repeating a call changes nothing
after the first; and from a ledger with no record for the path a
fresh registration leaves exactly one record. -/
theorem register_redirect_first_write_wins :
    (∀ (ledger : List Redirect) (oldSlug newSlug pfx : String),
      ledger.any (fun r => r.from_path == computePath pfx oldSlug) = true →
      createRedirectIfSlugChanged ledger oldSlug newSlug pfx = ledger)
  ∧ (∀ (ledger : List Redirect) (oldSlug newSlug pfx : String),
      createRedirectIfSlugChanged
        (createRedirectIfSlugChanged ledger oldSlug newSlug pfx) oldSlug newSlug pfx =
      createRedirectIfSlugChanged ledger oldSlug newSlug pfx)
  ∧ (∀ (oldSlug newSlug pfx : String), oldSlug ≠ "" → newSlug ≠ "" → oldSlug ≠ newSlug →
      (createRedirectIfSlugChanged [] oldSlug newSlug pfx).length = 1) := by
  refine ⟨fun ledger oldSlug newSlug pfx h => createRedirect_of_has h, ?_, ?_⟩
  · intro ledger oldSlug newSlug pfx
    by_cases hg : oldSlug = "" ∨ newSlug = "" ∨ oldSlug = newSlug
    · unfold createRedirectIfSlugChanged
      rw [if_pos hg, if_pos hg]
    · by_cases hne : computePath pfx oldSlug ≠ computePath pfx newSlug
      · apply createRedirect_of_has
        unfold createRedirectIfSlugChanged
        rw [if_neg hg, if_pos hne]
        exact getOrCreateRedirect_has ledger _ _
      · unfold createRedirectIfSlugChanged
        rw [if_neg hg, if_neg hne, if_neg hg, if_neg hne]
  · intro oldSlug newSlug pfx h1 h2 h3
    have hne : computePath pfx oldSlug ≠ computePath pfx newSlug :=
      fun he => h3 (computePath_inj pfx he)
    unfold createRedirectIfSlugChanged
    rw [if_neg (by simp [h1, h2, h3]), if_pos hne]
    unfold getOrCreateRedirect
    rw [if_neg (by simp)]
    rfl

/-- Witness for C5: a blocked second write and a fresh single insert at
concrete inputs. -/
theorem register_redirect_first_write_wins_witness :
    createRedirectIfSlugChanged [⟨"/stories/old/", "/stories/kept/", false⟩]
      "old" "new" "stories" = [⟨"/stories/old/", "/stories/kept/", false⟩]
  ∧ (createRedirectIfSlugChanged [] "old" "new" "stories").length = 1 :=
  ⟨register_redirect_first_write_wins.1 [⟨"/stories/old/", "/stories/kept/", false⟩]
      "old" "new" "stories" (by decide),
    register_redirect_first_write_wins.2.2 "old" "new" "stories"
      (by decide) (by decide) (by decide)⟩


/-- C2.  `assign_slug` returns the base candidate when no row other than
the excluded one holds it; otherwise it returns `base-k` for the smallest
positive `k` whose candidate is held by no row other than the excluded
one; the returned slug is always absent from the collection (excluding
the excluded row) at the instant of check.  Self-exclusion is the
`slugTaken` filter: a row whose id equals the excluded id never counts
as a collision, so a base already held by that row alone is returned
unchanged. -/
theorem assign_slug_correct (base : String) (rows : List (Nat × String)) (ex : Option Nat) :
    slugTaken rows ex (assign_slug base rows ex) = false
  ∧ (slugTaken rows ex base = false → assign_slug base rows ex = base)
  ∧ (slugTaken rows ex base = true →
      ∃ k, 0 < k ∧ assign_slug base rows ex = candidate base k
        ∧ slugTaken rows ex (candidate base k) = false
        ∧ ∀ j, 0 < j → j < k → slugTaken rows ex (candidate base j) = true) :=
  assign_slug_spec base rows ex

/-- Witness for C2: self-exclusion at a concrete collection — row 2
already holds `"zomato-1"`, so regenerating against `exclude_id = 2`
returns the base unchanged; and a genuinely taken base gets suffix `-1`. -/
theorem assign_slug_correct_witness :
    (slugTaken [(1, "zomato"), (2, "zomato-1")] (some 2) "zomato-1" = false
      ∧ assign_slug "zomato-1" [(1, "zomato"), (2, "zomato-1")] (some 2) = "zomato-1")
  ∧ slugTaken [(1, "zomato")] none (assign_slug "zomato" [(1, "zomato")] none) = false :=
  ⟨⟨by decide,
      (assign_slug_correct "zomato-1" [(1, "zomato"), (2, "zomato-1")] (some 2)).2.1 (by decide)⟩,
    (assign_slug_correct "zomato" [(1, "zomato")] none).1⟩

/-- C3 counterexample.  Running the spec's own scenario through the code:
two Startups created from the name "Zomato" hold "zomato" and "zomato-1";
updating the second with explicit slug "zomato" does NOT produce
"zomato-2" — the uniqueness loop excludes the startup's own row, finds
"zomato-1" free, keeps the slug unchanged, and registers no redirect. -/
theorem zomato_rename_counterexample :
    startupCreate [] 1 (some "Zomato") none none =
      Except.ok ⟨[(1, "zomato")], "zomato", "published"⟩
  ∧ startupCreate [(1, "zomato")] 2 (some "Zomato") none none =
      Except.ok ⟨[(1, "zomato"), (2, "zomato-1")], "zomato-1", "published"⟩
  ∧ startupUpdate [(1, "zomato"), (2, "zomato-1")] [] "zomato-1" (some "zomato") =
      some ([(1, "zomato"), (2, "zomato-1")], [])
  ∧ startupUpdate [(1, "zomato"), (2, "zomato-1")] [] "zomato-1" (some "zomato") ≠
      some ([(1, "zomato"), (2, "zomato-2")],
        [⟨"/startups/zomato-1/", "/startups/zomato-2/", true⟩]) := by
  refine ⟨by decide, by decide, by decide, by decide⟩

/-- C3 amended.  In the Zomato scenario the second Startup's explicit
rename to "zomato" leaves its slug "zomato-1": "zomato" is taken by the
first Startup, and the next candidate "zomato-1" does not collide because
the generator excludes the startup's own row; the slug is therefore
unchanged and no redirect record is created. -/
theorem zomato_rename_amended :
    startupCreate [] 1 (some "Zomato") none none =
      Except.ok ⟨[(1, "zomato")], "zomato", "published"⟩
  ∧ startupCreate [(1, "zomato")] 2 (some "Zomato") none none =
      Except.ok ⟨[(1, "zomato"), (2, "zomato-1")], "zomato-1", "published"⟩
  ∧ startupUpdateNewSlug [(1, "zomato"), (2, "zomato-1")] 2 "zomato-1" (some "zomato") =
      "zomato-1"
  ∧ startupUpdate [(1, "zomato"), (2, "zomato-1")] [] "zomato-1" (some "zomato") =
      some ([(1, "zomato"), (2, "zomato-1")], []) := by
  refine ⟨by decide, by decide, by decide, by decide⟩


/-- C6 counterexample.  `category_update` changes the slug (renaming
"Tech" regenerates slug "technology" from the new name) but contains no
call into the redirect ledger: the ledger stays empty and no record keyed
on the old path "/categories/tech/" exists after the update. -/
theorem redirect_coverage_counterexample :
    categoryUpdate [(1, "Tech", "tech")] [] "tech" (some "Technology") =
      some ([(1, "Technology", "technology")], [])
  ∧ "technology" ≠ "tech"
  ∧ ([] : List Redirect).any
      (fun r => r.from_path == computePath "categories" "tech") = false := by
  refine ⟨by decide, by decide, by decide⟩

/-- C6 amended.  Only `startup_update` and `story_update` invoke
`_create_redirect_if_slug_changed` after persisting: when the persisted
slug (for stories, the value after the `Story.save` normalisation, which
is what the redirect call reads) actually differs from the old one, a
record keyed on the old path is left in the ledger; `category_update`,
`city_update` and `page_update` return the redirect ledger exactly as it
came in, even when they change the slug. -/
theorem redirect_coverage_amended :
    (∀ (rows : List (Nat × String)) (ledger : List Redirect) (u : String)
        (d : Option String) (rows2 : List (Nat × String)) (ledger2 : List Redirect)
        (id : Nat),
      startupUpdate rows ledger u d = some (rows2, ledger2) →
      rows.find? (fun r => r.2 == u) = some (id, u) →
      startupUpdateNewSlug rows id u d ≠ u →
      startupUpdateNewSlug rows id u d ≠ "" →
      u ≠ "" →
      ledger2.any (fun r => r.from_path == computePath "startups" u) = true)
  ∧ (∀ (rows : List (Nat × String)) (ledger : List Redirect) (sid : Nat)
        (title : String) (d : Option String) (rows2 : List (Nat × String))
        (ledger2 : List Redirect) (old : String),
      storyUpdate rows ledger sid title d = some (rows2, ledger2) →
      rows.find? (fun r => r.1 == sid) = some (sid, old) →
      storySaveSlug title (storyUpdateNewSlug rows sid old d) ≠ old →
      storySaveSlug title (storyUpdateNewSlug rows sid old d) ≠ "" →
      old ≠ "" →
      ledger2.any (fun r => r.from_path == computePath "stories" old) = true)
  ∧ (∀ (rows : List (Nat × String × String)) (ledger : List Redirect) (u : String)
        (n : Option String) (out : List (Nat × String × String) × List Redirect),
      categoryUpdate rows ledger u n = some out → out.2 = ledger)
  ∧ (∀ (rows : List (Nat × String × String)) (ledger : List Redirect) (u : String)
        (nOpt sOpt : Option String) (out : List (Nat × String × String) × List Redirect),
      cityUpdate rows ledger u nOpt sOpt = Except.ok out → out.2 = ledger)
  ∧ (∀ (rows : List (Nat × String)) (ledger : List Redirect) (pk : Nat)
        (d : Option String) (out : List (Nat × String) × List Redirect),
      pageUpdate rows ledger pk d = some out → out.2 = ledger) := by
  refine ⟨?_, ?_, ?_, ?_, ?_⟩
  · intro rows ledger u d rows2 ledger2 id hupd hfind hns hne hu
    unfold startupUpdate at hupd
    rw [hfind] at hupd
    simp only [Option.some.injEq, Prod.mk.injEq] at hupd
    have hled : ledger2 = createRedirectIfSlugChanged ledger u
        (startupUpdateNewSlug rows id u d) "startups" := hupd.2.symm
    rw [hled]
    exact createRedirect_registers ledger u _ "startups" hu hne (fun he => hns he.symm)
  · intro rows ledger sid title d rows2 ledger2 old hupd hfind hns hne hold
    unfold storyUpdate at hupd
    rw [hfind] at hupd
    simp only [Option.some.injEq, Prod.mk.injEq] at hupd
    have hled : ledger2 = createRedirectIfSlugChanged ledger old
        (storySaveSlug title (storyUpdateNewSlug rows sid old d)) "stories" := hupd.2.symm
    rw [hled]
    exact createRedirect_registers ledger old _ "stories" hold hne (fun he => hns he.symm)
  · intro rows ledger u n out h
    cases hf : rows.find? (fun r => r.2.2 == u) with
    | none =>
      simp only [categoryUpdate, hf] at h
      exact absurd h (by simp)
    | some r =>
      cases n with
      | none =>
        simp only [categoryUpdate, hf, Option.some.injEq] at h
        rw [← h]
      | some nm =>
        by_cases hc : nm ≠ "" ∧ pyStrip nm ≠ "" ∧ pyStrip nm ≠ r.2.1
        · simp only [categoryUpdate, hf, if_pos hc, Option.some.injEq] at h
          rw [← h]
        · simp only [categoryUpdate, hf, if_neg hc, Option.some.injEq] at h
          rw [← h]
  · intro rows ledger u nOpt sOpt out h
    cases hf : rows.find? (fun r => r.2.2 == u) with
    | none =>
      simp only [cityUpdate, hf] at h
      exact absurd h (by simp)
    | some r =>
      simp only [cityUpdate, hf] at h
      repeat' split at h
      all_goals
        first
          | exact Except.noConfusion h
          | (simp only [Except.ok.injEq] at h
             rw [← h])
  · intro rows ledger pk d out h
    cases hf : rows.find? (fun r => r.1 == pk) with
    | none =>
      simp only [pageUpdate, hf] at h
      exact absurd h (by simp)
    | some r =>
      cases d with
      | none =>
        simp only [pageUpdate, hf, Option.some.injEq] at h
        rw [← h]
      | some s =>
        by_cases hc : s ≠ r.2
        · simp only [pageUpdate, hf, if_pos hc, Option.some.injEq] at h
          rw [← h]
        · simp only [pageUpdate, hf, if_neg hc, Option.some.injEq] at h
          rw [← h]


/-- Witness for C6: a concrete slug-changing `startup_update` (from
"alpha" to "beta") whose resulting ledger carries a record keyed on the
old path. -/
theorem redirect_coverage_amended_witness :
    ([⟨"/startups/alpha/", "/startups/beta/", true⟩] : List Redirect).any
      (fun r => r.from_path == computePath "startups" "alpha") = true :=
  redirect_coverage_amended.1 [(1, "alpha")] [] "alpha" (some "beta")
    [(1, "beta")] [⟨"/startups/alpha/", "/startups/beta/", true⟩] 1
    (by decide) (by decide) (by decide) (by decide) (by decide)

/-- C7 counterexample.  `story_update` runs its save and its redirect
registration as two separate autocommitted statements (no
`transaction.atomic`), so the execution that commits only the first group
leaves the story renamed to "y" while no record for "/stories/x/" exists. -/
theorem story_update_atomicity_counterexample :
    storyUpdateTxnGroups [(1, "x")] 1 "Story X" (some "y") =
      some [[DbEff.saveEntity 1 "y"], [DbEff.putRedirect "/stories/x/" "/stories/y/"]]
  ∧ (commitUpTo ⟨[(1, "x")], []⟩
      [[DbEff.saveEntity 1 "y"], [DbEff.putRedirect "/stories/x/" "/stories/y/"]] 1).entities =
      [(1, "y")]
  ∧ (commitUpTo ⟨[(1, "x")], []⟩
      [[DbEff.saveEntity 1 "y"], [DbEff.putRedirect "/stories/x/" "/stories/y/"]] 1).redirects =
      [] := by
  refine ⟨by decide, by decide, by decide⟩

/-- C7 amended.  `startup_update` performs the save and the redirect
registration inside a single `transaction.atomic` block, so every
group-aligned partial commit is all-or-nothing; `story_update` issues
them as two separate statements, and the partial commit after the first
statement leaves the story renamed with no redirect recorded (a state
distinct from both the initial and the final one). -/
theorem update_atomicity_amended :
    (∀ (rows : List (Nat × String)) (u : String) (d : Option String)
        (gs : List (List DbEff)),
      startupUpdateTxnGroups rows u d = some gs →
      ∀ (st : LedgerState) (n : Nat),
        commitUpTo st gs n = st ∨ commitUpTo st gs n = runGroups st gs)
  ∧ (storyUpdateTxnGroups [(1, "x")] 1 "Story X" (some "y") =
      some [[DbEff.saveEntity 1 "y"], [DbEff.putRedirect "/stories/x/" "/stories/y/"]]
    ∧ commitUpTo ⟨[(1, "x")], []⟩
        [[DbEff.saveEntity 1 "y"], [DbEff.putRedirect "/stories/x/" "/stories/y/"]] 1 ≠
        ⟨[(1, "x")], []⟩
    ∧ commitUpTo ⟨[(1, "x")], []⟩
        [[DbEff.saveEntity 1 "y"], [DbEff.putRedirect "/stories/x/" "/stories/y/"]] 1 ≠
        runGroups ⟨[(1, "x")], []⟩
          [[DbEff.saveEntity 1 "y"], [DbEff.putRedirect "/stories/x/" "/stories/y/"]]) := by
  constructor
  · intro rows u d gs hgs st n
    cases hf : rows.find? (fun r => r.2 == u) with
    | none =>
      simp only [startupUpdateTxnGroups, hf] at hgs
      exact Option.noConfusion hgs
    | some r =>
      simp only [startupUpdateTxnGroups, hf, Option.some.injEq] at hgs
      cases n with
      | zero =>
        left
        rfl
      | succ m =>
        right
        rw [← hgs]
        show runGroups st (List.take (m + 1) _) = _
        rw [List.take_succ_cons, List.take_nil]
  · refine ⟨by decide, by decide, by decide⟩

/-- Witness for C7: the all-or-nothing disjunction instantiated at a
concrete startup update and partial-commit point. -/
theorem update_atomicity_amended_witness :
    commitUpTo ⟨[(1, "a")], []⟩ [[DbEff.saveEntity 1 "b",
        DbEff.putRedirect "/startups/a/" "/startups/b/"]] 1 = ⟨[(1, "a")], []⟩
  ∨ commitUpTo ⟨[(1, "a")], []⟩ [[DbEff.saveEntity 1 "b",
        DbEff.putRedirect "/startups/a/" "/startups/b/"]] 1 =
      runGroups ⟨[(1, "a")], []⟩ [[DbEff.saveEntity 1 "b",
        DbEff.putRedirect "/startups/a/" "/startups/b/"]] :=
  update_atomicity_amended.1 [(1, "a")] "a" (some "b")
    [[DbEff.saveEntity 1 "b", DbEff.putRedirect "/startups/a/" "/startups/b/"]]
    (by decide) ⟨[(1, "a")], []⟩ 1

/-- C8 counterexample.  `story_create` performs no validation of the
required title: an empty-string title is accepted, a Story row with empty
title and empty slug is persisted, and the call reports success rather
than a validation error. -/
theorem story_create_validation_counterexample :
    storyCreate [] 1 (some "") none none =
      Except.ok (⟨[(1, "")], "", "draft"⟩, "") := by
  decide

/-- C8 amended.  `startup_create` rejects a missing, empty or
whitespace-only name with a validation error and persists nothing, but
`story_create` does not validate its title: an empty title always
persists a new Story row (with the slug generated from the empty base),
and only a missing (`None`) title fails — via the database NOT NULL
constraint, not a validation check. -/
theorem create_validation_amended :
    (∀ (rows : List (Nat × String)) (id : Nat) (slugOpt statusOpt : Option String),
      startupCreate rows id none slugOpt statusOpt = Except.error "Name is required")
  ∧ (∀ (rows : List (Nat × String)) (id : Nat) (slugOpt statusOpt : Option String),
      startupCreate rows id (some "") slugOpt statusOpt = Except.error "Name is required")
  ∧ (∀ (rows : List (Nat × String)) (id : Nat) (slugOpt statusOpt : Option String),
      startupCreate rows id (some "   ") slugOpt statusOpt = Except.error "Name is required")
  ∧ (∀ (rows : List (Nat × String)) (id : Nat) (statusOpt : Option String),
      ∃ out, storyCreate rows id (some "") none statusOpt = Except.ok out
        ∧ out.1.rows = rows ++ [(id, assign_slug "" rows none)]
        ∧ out.2 = "")
  ∧ (∀ (rows : List (Nat × String)) (id : Nat) (slugOpt statusOpt : Option String),
      ∃ msg, storyCreate rows id none slugOpt statusOpt = Except.error msg) := by
  refine ⟨?_, ?_, ?_, ?_, ?_⟩
  · intro rows id slugOpt statusOpt
    unfold startupCreate
    rw [if_pos (by decide)]
  · intro rows id slugOpt statusOpt
    unfold startupCreate
    rw [if_pos (by decide)]
  · intro rows id slugOpt statusOpt
    unfold startupCreate
    rw [if_pos (by decide)]
  · intro rows id statusOpt
    have hs : slugify "" = "" := by decide
    refine ⟨(⟨rows ++ [(id, storySaveSlug "" (assign_slug (slugify "") rows none))],
        storySaveSlug "" (assign_slug (slugify "") rows none), statusOpt.getD "draft"⟩, ""),
      rfl, ?_, rfl⟩
    show rows ++ [(id, storySaveSlug "" (assign_slug (slugify "") rows none))] =
      rows ++ [(id, assign_slug "" rows none)]
    rw [hs, storySaveSlug_empty_assign rows]
  · intro rows id slugOpt statusOpt
    exact ⟨"NOT NULL constraint failed: cms_story.title", rfl⟩

/-- C9.  Deleting a startup (looked up by slug) or a story (looked up by
id) removes exactly that row: the redirect ledger is returned untouched
(every record still present, unmodified), every other row survives, and
no row is added. -/
theorem delete_frame_property :
    (∀ (rows : List (Nat × String)) (ledger : List Redirect) (u : String)
        (rows2 : List (Nat × String)) (ledger2 : List Redirect),
      startupDelete rows ledger u = some (rows2, ledger2) →
      ledger2 = ledger
        ∧ (∀ rec ∈ ledger, rec ∈ ledger2)
        ∧ (∃ id, rows.find? (fun r => r.2 == u) = some (id, u)
            ∧ (∀ q ∈ rows, q.1 ≠ id → q ∈ rows2)
            ∧ (∀ q ∈ rows2, q ∈ rows ∧ q.1 ≠ id)))
  ∧ (∀ (rows : List (Nat × String)) (ledger : List Redirect) (sid : Nat)
        (rows2 : List (Nat × String)) (ledger2 : List Redirect),
      storyDelete rows ledger sid = some (rows2, ledger2) →
      ledger2 = ledger
        ∧ (∀ rec ∈ ledger, rec ∈ ledger2)
        ∧ (∀ q ∈ rows, q.1 ≠ sid → q ∈ rows2)
        ∧ (∀ q ∈ rows2, q ∈ rows ∧ q.1 ≠ sid)) := by
  constructor
  · intro rows ledger u rows2 ledger2 h
    cases hf : rows.find? (fun r => r.2 == u) with
    | none =>
      simp only [startupDelete, hf] at h
      exact Option.noConfusion h
    | some r =>
      simp only [startupDelete, hf, Option.some.injEq, Prod.mk.injEq] at h
      obtain ⟨hrows, hled⟩ := h
      subst hled
      subst hrows
      have hru : r.2 = u := by
        have hp := List.find?_some hf
        rwa [beq_iff_eq] at hp
      refine ⟨rfl, fun rec hrec => hrec, r.1, ?_, ?_, ?_⟩
      · have hpair : (r.1, u) = r := by
          rw [← hru]
        rw [hpair]
      · intro q hq hne
        rw [List.mem_filter]
        exact ⟨hq, by simpa using hne⟩
      · intro q hq
        rw [List.mem_filter] at hq
        exact ⟨hq.1, by simpa using hq.2⟩
  · intro rows ledger sid rows2 ledger2 h
    cases hf : rows.find? (fun r => r.1 == sid) with
    | none =>
      simp only [storyDelete, hf] at h
      exact Option.noConfusion h
    | some r =>
      simp only [storyDelete, hf, Option.some.injEq, Prod.mk.injEq] at h
      obtain ⟨hrows, hled⟩ := h
      subst hled
      subst hrows
      refine ⟨rfl, fun rec hrec => hrec, ?_, ?_⟩
      · intro q hq hne
        rw [List.mem_filter]
        exact ⟨hq, by simpa using hne⟩
      · intro q hq
        rw [List.mem_filter] at hq
        exact ⟨hq.1, by simpa using hq.2⟩

/-- Witness for C9: deleting the startup "a" from a one-row collection
while a redirect pointing at its path sits in the ledger. -/
theorem delete_frame_property_witness :
    ([⟨"/startups/old/", "/startups/a/", true⟩] : List Redirect) =
      [⟨"/startups/old/", "/startups/a/", true⟩]
  ∧ (∀ rec ∈ ([⟨"/startups/old/", "/startups/a/", true⟩] : List Redirect),
      rec ∈ ([⟨"/startups/old/", "/startups/a/", true⟩] : List Redirect))
  ∧ (∃ id, [(1, "a")].find? (fun r => r.2 == "a") = some (id, "a")
      ∧ (∀ q ∈ [(1, "a")], q.1 ≠ id → q ∈ ([] : List (Nat × String)))
      ∧ (∀ q ∈ ([] : List (Nat × String)), q ∈ [(1, "a")] ∧ q.1 ≠ id)) :=
  delete_frame_property.1 [(1, "a")] [⟨"/startups/old/", "/startups/a/", true⟩] "a"
    [] [⟨"/startups/old/", "/startups/a/", true⟩] (by decide)

/-- C10.  `startup_create` persists status "published" when the request
supplies no status, although the Startup model's declared default is
"draft"; `story_create` defaults to "draft", matching its model. -/
theorem create_status_defaults :
    (∀ (rows : List (Nat × String)) (id : Nat) (nm : String) (slugOpt : Option String)
        (out : CreatedEntity),
      startupCreate rows id (some nm) slugOpt none = Except.ok out →
      out.status = "published")
  ∧ startupModelDefaultStatus = "draft"
  ∧ "published" ≠ startupModelDefaultStatus
  ∧ (∀ (rows : List (Nat × String)) (id : Nat) (t : String) (slugOpt : Option String)
        (out : CreatedEntity) (stored : String),
      storyCreate rows id (some t) slugOpt none = Except.ok (out, stored) →
      out.status = "draft")
  ∧ storyModelDefaultStatus = "draft" := by
  refine ⟨?_, rfl, by decide, ?_, rfl⟩
  · intro rows id nm slugOpt out h
    unfold startupCreate at h
    by_cases hnm : pyStrip ((some nm : Option String).getD "") = ""
    · rw [if_pos hnm] at h
      exact Except.noConfusion h
    · rw [if_neg hnm] at h
      simp only [Except.ok.injEq] at h
      rw [← h]
      rfl
  · intro rows id t slugOpt out stored h
    simp only [storyCreate, Except.ok.injEq, Prod.mk.injEq] at h
    rw [← h.1]
    rfl

/-- Witness for C10: a concrete status-less create of each kind. -/
theorem create_status_defaults_witness :
    (⟨[(1, "acme")], "acme", "published"⟩ : CreatedEntity).status = "published"
  ∧ (⟨[(1, "a-story")], "a-story", "draft"⟩ : CreatedEntity).status = "draft" :=
  ⟨create_status_defaults.1 [] 1 "Acme" none ⟨[(1, "acme")], "acme", "published"⟩
      (by decide),
    create_status_defaults.2.2.2.1 [] 1 "A Story" none
      ⟨[(1, "a-story")], "a-story", "draft"⟩ "A Story" (by decide)⟩

end StartupSaga
